import Mathlib

/-!
# Status report aggregator of the postgres-operator API server

Shallow embedding of `apiserver/statusservice/statusimpl.go`: the extractors
(`getOperatorStart`, `getNumBackups`, `getNumClaims`, `getNumDatabases`,
`getVolumeCap`, `getDBTags`, `getNotReady`, `getNodes`, `getLabels`), the composer
`getStatus` and the envelope builder `Status`.

Conventions of the embedding:
* a Go slice is a `List`; a Go `map[string]T` is an association list with the
  entries in the order in which they were first stored (`mapSet`), read with
  `mapGet` (a missing key reads as the zero value);
* the order in which `range` visits a map and the way `sort.Slice` arranges a
  slice belong to the Go runtime: they are the fields of `Runtime`, constrained
  only by `Runtime.Lawful`;
* the remote listings of package `kubeapi` are the fields of `Gateway`; a listing
  answers either with an error or with the list of items;
* a Go function that can panic returns an `Option`, `none` standing for the panic;
* `int64` arithmetic wraps (`wrapInt64`); the `int` counters only count elements of
  slices and maps held in memory, they stay inside the `int` range and are plain
  integers.
-/

namespace statusservice

/-! ## Data model -/

/-- Modelled from the spec: `metav1.Time` of the Kubernetes API types, which are not
part of the sources at hand; a time is represented by the text its `String` method
yields. -/
structure Time where
  text : String
  deriving DecidableEq

/-- The `String` method of a time value. -/
def Time.String (t : Time) : String := t.text

/-- The three formats of a quantity in the Kubernetes library. -/
inductive Format where
  | DecimalExponent
  | BinarySI
  | DecimalSI
  deriving DecidableEq

/-- The range of `int64`. -/
def fitsInt64 (x : Int) : Prop := -(2 ^ 63) ≤ x ∧ x < 2 ^ 63

instance (x : Int) : Decidable (fitsInt64 x) := by
  unfold fitsInt64; infer_instance

/-- Modelled from the spec: `resource.Quantity` of the Kubernetes library, which is
not part of the sources at hand. `whole n format` is a quantity of exactly `n` bytes,
`n` in the `int64` range, carrying the given format; `fractional` is a quantity that
is not a whole number of bytes. Whole quantities outside the `int64` range are not
covered. -/
inductive Quantity where
  | whole (bytes : Int) (format : Format) (inRange : fitsInt64 bytes)
  | fractional

/-- One container of a pod spec; only the image reference is read. -/
structure Container where
  Image : String
  deriving DecidableEq

/-- One container status of a pod; only the readiness flag is read. -/
structure ContainerStatus where
  Ready : Bool
  deriving DecidableEq

/-- The parts of `v1.Pod` the extractors read. `StartTime` is a pointer in Go
(`*metav1.Time`), `none` is the nil pointer. -/
structure Pod where
  Name : String
  Phase : String
  StartTime : Option Time
  Containers : List Container
  ContainerStatuses : List ContainerStatus
  deriving DecidableEq

/-- A backup job; the extractor only counts jobs. -/
structure Job where
  Name : String
  deriving DecidableEq

/-- The parts of `v1.PersistentVolumeClaim` that are read: `Status.Capacity`, a map
from resource name to quantity. -/
structure PersistentVolumeClaim where
  Name : String
  Capacity : List (String × Quantity)

/-- The parts of a deployment that are read: the label map of its metadata. -/
structure Deployment where
  Name : String
  Labels : List (String × String)
  deriving DecidableEq

/-- One entry of a node's condition list; only the type is read. -/
structure NodeCondition where
  Type_ : String
  deriving DecidableEq

/-- The parts of `v1.Node` that are read. -/
structure Node where
  Name : String
  Labels : List (String × String)
  Conditions : List NodeCondition
  deriving DecidableEq

/-- Message type `msgs.NodeInfo`. -/
structure NodeInfo where
  Name : String
  Status : String
  Labels : List (String × String)
  deriving DecidableEq

/-- Message type `msgs.KeyValue`. -/
structure KeyValue where
  Key : String
  Value : Int
  deriving DecidableEq

/-- Message type `msgs.StatusDetail`, the report. -/
structure StatusDetail where
  OperatorStartTime : String
  NumBackups : Int
  NumClaims : Int
  NumDatabases : Int
  VolumeCap : String
  DbTags : List (String × Int)
  NotReady : List String
  Nodes : List NodeInfo
  Labels : List KeyValue
  deriving DecidableEq

/-- The two status codes `msgs.Ok` and `msgs.Error`. -/
inductive Code where
  | Ok
  | Error
  deriving DecidableEq

/-- Message type `msgs.Status`. -/
structure StatusMsg where
  Code : Code
  Msg : String
  deriving DecidableEq

/-- Message type `msgs.StatusResponse`, the envelope. -/
structure StatusResponse where
  Result : StatusDetail
  Status : StatusMsg
  deriving DecidableEq

/-- The zero value of `msgs.StatusDetail`. -/
def StatusDetail.zero : StatusDetail :=
  { OperatorStartTime := "", NumBackups := 0, NumClaims := 0, NumDatabases := 0,
    VolumeCap := "", DbTags := [], NotReady := [], Nodes := [], Labels := [] }

/-! ## Collaborators outside the file -/

/-- The label constants of package `util` that the selectors are built from; the
package is not part of the sources at hand, so the constants are parameters. -/
structure Util where
  LABEL_OPERATOR : String
  LABEL_PGBACKUP : String
  LABEL_PGREMOVE : String
  LABEL_PG_CLUSTER : String

/-- The listings of package `kubeapi` over the shared client set. The first argument
is the label selector, the second the namespace; a listing answers with an error or
with the items. -/
structure Gateway where
  GetPods : String → String → Except String (List Pod)
  GetJobs : String → String → Except String (List Job)
  GetPVCs : String → String → Except String (List PersistentVolumeClaim)
  GetDeployments : String → String → Except String (List Deployment)
  GetAllNodes : Except String (List Node)

/-- What the Go runtime decides: the order in which `range` visits the entries of a
label map and of a count map, and the arrangement `sort.Slice` gives to a slice for
a `less` function. -/
structure Runtime where
  rangeLabels : List (String × String) → List (String × String)
  rangeCounts : List (String × Int) → List (String × Int)
  sortSlice : (KeyValue → KeyValue → Bool) → List KeyValue → List KeyValue

/-- A `less` function as `sort.Slice` expects it: a strict weak ordering, given by
asymmetry and negative transitivity. -/
structure StrictWeakOrder {α : Type} (less : α → α → Bool) : Prop where
  asymm : ∀ a b, less a b = true → less b a = false
  negTrans : ∀ a b c, less a c = true → less a b = true ∨ less b c = true

/-- The contract of the runtime: `range` visits every entry of the map exactly once,
and `sort.Slice` rearranges the slice so that no element is `less` than its
predecessor. -/
structure Runtime.Lawful (rt : Runtime) : Prop where
  rangeLabels_perm : ∀ m, (rt.rangeLabels m).Perm m
  rangeCounts_perm : ∀ m, (rt.rangeCounts m).Perm m
  sortSlice_perm : ∀ less l, (rt.sortSlice less l).Perm l
  sortSlice_sorted : ∀ less l, StrictWeakOrder less →
    (rt.sortSlice less l).Chain' (fun a b => less b a = false)

/-! ## Go maps and machine integers -/

/-- Reading `m[k]` from a `map[string]int`: the zero value when the key is absent. -/
def mapGet (m : List (String × Int)) (k : String) : Int :=
  (m.lookup k).getD 0

/-- The assignment `m[k] = v`: the entry of `k` is replaced, or added when absent. -/
def mapSet (m : List (String × Int)) (k : String) (v : Int) : List (String × Int) :=
  match m with
  | [] => [(k, v)]
  | (k', v') :: rest => if k' = k then (k', v) :: rest else (k', v') :: mapSet rest k v

/-- Two's complement wrap of an integer into the `int64` range. -/
def wrapInt64 (x : Int) : Int :=
  (x + 2 ^ 63) % 2 ^ 64 - 2 ^ 63

/-! ## The quantity library -/

/-- The key `v1.ResourceStorage` of a capacity map. -/
def ResourceStorage : String := "storage"

/-- The loop of the library's `removeInt64Factors` on a non-negative value: divides
by `base` as long as the value is at least `base` and a multiple of it. -/
def removeFactorsLoop (base : Int) : Nat → Int → Nat → Int × Nat
  | 0, result, times => (result, times)
  | fuel + 1, result, times =>
    if result ≥ base ∧ result % base = 0 then
      removeFactorsLoop base fuel (result / base) (times + 1)
    else (result, times)

/-- Modelled from the spec: `removeInt64Factors` of the quantity library: the value
with all factors `base` removed, and their number. Sixty-four rounds exhaust any
`int64` for a base of at least two. -/
def removeInt64Factors (value base : Int) : Int × Nat :=
  let negative := decide (value < 0)
  let result := if negative then wrapInt64 (-value) else value
  let (r, times) := removeFactorsLoop base 64 result 0
  (if negative then wrapInt64 (-r) else r, times)

/-- What the library reads back from the suffix of a quantity text: a binary suffix
(`Ki` is `binary 1`, `Mi` is `binary 2`, ...) or a power of ten (`k` and `e3` are
`decimal 3`; no suffix is `decimal 0`). -/
inductive Suffix where
  | binary (power : Nat)
  | decimal (exponent : Nat)
  deriving DecidableEq

/-- Modelled from the spec: the canonical text `qty.String()` of a whole quantity, as
the magnitude of its number and its suffix. A quantity in the binary format of at
least 1024 bytes in absolute value is written as the number left after removing all
factors 1024, with the binary suffix of their number (none when there is no factor).
Any other quantity is written in decimal form: all factors ten are removed, and the
exponent is lowered to a multiple of three by putting one or two factors back
(`5000` is `5k`, `1500` is `1500`). -/
def canonicalText (n : Int) (format : Format) : Int × Suffix :=
  let a : Int := n.natAbs
  if format = Format.BinarySI ∧ a ≥ 1024 then
    let (num, power) := removeFactorsLoop 1024 64 a 0
    (num, if power = 0 then Suffix.decimal 0 else Suffix.binary power)
  else
    let (num, exponent) := removeFactorsLoop 10 64 a 0
    (num * 10 ^ (exponent % 3), Suffix.decimal (exponent - exponent % 3))

/-- Modelled from the spec: whether `resource.MustParse` keeps the quantity it reads
from a canonical text as an `int64` (its fast path) or as an arbitrary-precision
decimal. With `len` the number of digits, the library computes a precision of
`18 - len` for a decimal suffix or none, and of `15 - len - 3 * power - 1` for a
binary suffix, and keeps an `int64` when the precision is not negative. So plain
numbers of 19 digits and binary quantities from `100Ti` on are held as decimals. -/
def parsedAsInt64 (n : Int) (format : Format) : Bool :=
  match canonicalText n format with
  | (num, Suffix.decimal _) => decide ((toString num).length ≤ 18)
  | (num, Suffix.binary power) => decide ((toString num).length + 3 * power + 1 ≤ 15)

/-- Modelled from the spec: the conversion `resource.MustParse(qty.String()).AsInt64()`
of the Kubernetes quantity library, value and success flag. A whole quantity that the
re-parse keeps as an `int64` is returned as it is; one that the re-parse holds as an
arbitrary-precision decimal gives `(0, false)`, and so does a fractional quantity. -/
def Quantity.AsInt64 : Quantity → Int × Bool
  | .whole n format _ => if parsedAsInt64 n format then (n, true) else (0, false)
  | .fractional => (0, false)

/-- The zero value of `resource.Quantity`. -/
def Quantity.zero : Quantity := Quantity.whole 0 Format.DecimalSI (by decide)

/-- The binary suffixes of the quantity library, by power of 1024. -/
def binarySuffix : Nat → String
  | 0 => ""
  | 1 => "Ki"
  | 2 => "Mi"
  | 3 => "Gi"
  | 4 => "Ti"
  | 5 => "Pi"
  | _ => "Ei"

/-- The decimal suffixes of the quantity library, by power of ten (a multiple of
three); an `int64` below 1024 in absolute value only reaches 0 and 3. -/
def decimalSuffix : Nat → String
  | 0 => ""
  | 3 => "k"
  | 6 => "M"
  | 9 => "G"
  | 12 => "T"
  | 15 => "P"
  | _ => "E"

/-- Modelled from the spec: `resource.NewQuantity(v, resource.BinarySI).String()`, the
canonical rendering of a byte count: zero is `"0"`; a value below 1024 in absolute
value is written in decimal form; any other value is written as the number left after
removing all factors 1024, followed by the binary suffix of their number (`"8Gi"`). -/
def quantityString (v : Int) : String :=
  if v = 0 then "0"
  else if -1024 < v ∧ v < 1024 then
    let (amount, times) := removeInt64Factors v 10
    match times % 3 with
    | 1 => toString (amount * 10) ++ decimalSuffix (times - 1)
    | 2 => toString (amount * 100) ++ decimalSuffix (times - 2)
    | _ => toString amount ++ decimalSuffix times
  else
    let (amount, times) := removeInt64Factors v 1024
    toString amount ++ binarySuffix times

/-! ## The extractors -/

/-- The loop of `getOperatorStart`: the start time of the first pod in the `Running`
phase; `p.Status.StartTime.String()` dereferences the pointer, so a nil start time
panics (`none`). Without a running pod the result is the sentinel `"error"`. -/
def getOperatorStartLoop : List Pod → Option String
  | [] => some "error"
  | p :: rest =>
    if p.Phase = "Running" then
      match p.StartTime with
      | some t => some t.String
      | none => none
    else getOperatorStartLoop rest

/-- Extractor `getOperatorStart`. -/
def getOperatorStart (u : Util) (gw : Gateway) (ns : String) : Option String :=
  match gw.GetPods ("name=" ++ u.LABEL_OPERATOR) ns with
  | .error _ => some "error"
  | .ok pods => getOperatorStartLoop pods

/-- Extractor `getNumBackups`. -/
def getNumBackups (u : Util) (gw : Gateway) (ns : String) : Int :=
  match gw.GetJobs u.LABEL_PGBACKUP ns with
  | .error _ => 0
  | .ok jobs => jobs.length

/-- Extractor `getNumClaims`. -/
def getNumClaims (u : Util) (gw : Gateway) (ns : String) : Int :=
  match gw.GetPVCs u.LABEL_PGREMOVE ns with
  | .error _ => 0
  | .ok pvcs => pvcs.length

/-- Extractor `getNumDatabases`. -/
def getNumDatabases (u : Util) (gw : Gateway) (ns : String) : Int :=
  match gw.GetDeployments u.LABEL_PG_CLUSTER ns with
  | .error _ => 0
  | .ok deps => deps.length

/-- Helper `getClaimCapacity`: the storage entry of the capacity map (the zero
quantity when absent), converted with `AsInt64`, the success flag dropped. -/
def getClaimCapacity (pvc : PersistentVolumeClaim) : Int :=
  let qty := (pvc.Capacity.lookup ResourceStorage).getD Quantity.zero
  let (diskSizeInt64, _) := qty.AsInt64
  diskSizeInt64

/-- The summation loop of `getVolumeCap` over an `int64` accumulator. -/
def sumClaimCapacity (pvcs : List PersistentVolumeClaim) : Int :=
  pvcs.foldl (fun capTotal p => wrapInt64 (capTotal + getClaimCapacity p)) 0

/-- Extractor `getVolumeCap`. -/
def getVolumeCap (u : Util) (gw : Gateway) (ns : String) : String :=
  match gw.GetPVCs u.LABEL_PGREMOVE ns with
  | .error _ => "error"
  | .ok pvcs => quantityString (sumClaimCapacity pvcs)

/-- The loops of `getDBTags`: `results[c.Image]++` for every container of every pod. -/
def countImages (pods : List Pod) : List (String × Int) :=
  pods.foldl
    (fun results p =>
      p.Containers.foldl (fun results c => mapSet results c.Image (mapGet results c.Image + 1))
        results)
    []

/-- Extractor `getDBTags`. -/
def getDBTags (u : Util) (gw : Gateway) (ns : String) : List (String × Int) :=
  match gw.GetPods u.LABEL_PG_CLUSTER ns with
  | .error _ => []
  | .ok pods => countImages pods

/-- The loops of `getNotReady`: the pod name is appended for every container status
that is not ready. -/
def collectNotReady (pods : List Pod) : List String :=
  pods.foldl
    (fun agg p =>
      p.ContainerStatuses.foldl (fun agg stat => if !stat.Ready then agg ++ [p.Name] else agg)
        agg)
    []

/-- Extractor `getNotReady`. -/
def getNotReady (u : Util) (gw : Gateway) (ns : String) : List String :=
  match gw.GetPods u.LABEL_PG_CLUSTER ns with
  | .error _ => []
  | .ok pods => collectNotReady pods

/-- The body of the loop of `getNodes` for one node. The indexing
`node.Status.Conditions[clen-1]` is the partial `get?`: an index out of range is a
panic (`none`). -/
def nodeInfo (node : Node) : Option NodeInfo :=
  let clen := node.Conditions.length
  if clen > 0 then
    match node.Conditions.get? (clen - 1) with
    | some c => some { Name := node.Name, Status := c.Type_, Labels := node.Labels }
    | none => none
  else some { Name := node.Name, Status := "", Labels := node.Labels }

/-- The loop of `getNodes`. -/
def collectNodes : List Node → List NodeInfo → Option (List NodeInfo)
  | [], result => some result
  | node :: rest, result =>
    match nodeInfo node with
    | some r => collectNodes rest (result ++ [r])
    | none => none

/-- Extractor `getNodes`. -/
def getNodes (gw : Gateway) : Option (List NodeInfo) :=
  match gw.GetAllNodes with
  | .error _ => some []
  | .ok nodes => collectNodes nodes []

/-- The counting step of `getLabels` for one label string. -/
def countLabel (results : List (String × Int)) (lv : String) : List (String × Int) :=
  if mapGet results lv = 0 then mapSet results lv 1
  else mapSet results lv (mapGet results lv + 1)

/-- The counting loops of `getLabels`: every label of every deployment, the labels
of one deployment in the order `range` visits them. -/
def countLabels (rt : Runtime) (deps : List Deployment) : List (String × Int) :=
  deps.foldl
    (fun results dep =>
      (rt.rangeLabels dep.Labels).foldl
        (fun results kv => countLabel results (kv.1 ++ "=" ++ kv.2)) results)
    []

/-- The `less` function `getLabels` hands to `sort.Slice`. -/
def labelLess (a b : KeyValue) : Bool := decide (a.Value > b.Value)

/-- Extractor `getLabels`. -/
def getLabels (rt : Runtime) (gw : Gateway) (ns : String) : List KeyValue :=
  match gw.GetDeployments "" ns with
  | .error _ => []
  | .ok deps =>
    let results := countLabels rt deps
    let ss := (rt.rangeCounts results).map (fun kv => KeyValue.mk kv.1 kv.2)
    rt.sortSlice labelLess ss

/-! ## Composer and envelope -/

/-- Composer `getStatus`: fills the report field by field and returns the error
variable, which is never assigned. The result is the report with the returned
error; `none` when an extractor panics. -/
def getStatus (rt : Runtime) (u : Util) (gw : Gateway) (results : StatusDetail)
    (ns : String) : Option (StatusDetail × Option String) :=
  let err : Option String := none
  match getOperatorStart u gw ns with
  | none => none
  | some start =>
    let results := { results with OperatorStartTime := start }
    let results := { results with NumBackups := getNumBackups u gw ns }
    let results := { results with NumClaims := getNumClaims u gw ns }
    let results := { results with NumDatabases := getNumDatabases u gw ns }
    let results := { results with VolumeCap := getVolumeCap u gw ns }
    let results := { results with DbTags := getDBTags u gw ns }
    let results := { results with NotReady := getNotReady u gw ns }
    match getNodes gw with
    | none => none
    | some nodes =>
      let results := { results with Nodes := nodes }
      let results := { results with Labels := getLabels rt gw ns }
      some (results, err)

/-- Entry point `Status`: the envelope starts as `Ok` with an empty message and
is turned into `Error` when `getStatus` returns an error. -/
def Status (rt : Runtime) (u : Util) (gw : Gateway) (ns : String) : Option StatusResponse :=
  let response : StatusResponse :=
    { Result := StatusDetail.zero, Status := { Code := Code.Ok, Msg := "" } }
  match getStatus rt u gw response.Result ns with
  | none => none
  | some (result, err) =>
    let response := { response with Result := result }
    match err with
    | some _ =>
      some { response with Status := { Code := Code.Error, Msg := "error getting status report" } }
    | none => some response

/-! ## Reference notions the properties are stated with -/

/-- One `m[s]++` on a count map. -/
def bump (m : List (String × Int)) (s : String) : List (String × Int) :=
  mapSet m s (mapGet m s + 1)

/-- The image references of all containers of all pods, in pod order. -/
def allImages (pods : List Pod) : List String :=
  pods.flatMap (fun p => p.Containers.map (fun c => c.Image))

/-- The strings `key=value` of all labels of all deployments, one per (deployment,
label) pair. -/
def labelStrings (deps : List Deployment) : List String :=
  deps.flatMap (fun dep => dep.Labels.map (fun kv => kv.1 ++ "=" ++ kv.2))

/-- A claim reports a whole byte count: its storage capacity, when present, is a
whole number of bytes. -/
def wholeCapacity (pvc : PersistentVolumeClaim) : Prop :=
  match pvc.Capacity.lookup ResourceStorage with
  | some (Quantity.whole _ _ _) => True
  | some Quantity.fractional => False
  | none => True

instance (pvc : PersistentVolumeClaim) : Decidable (wholeCapacity pvc) := by
  unfold wholeCapacity; split <;> infer_instance

/-- The conversion in `getClaimCapacity` succeeds on the claim: `AsInt64` sets its
success flag for the storage capacity (or the claim has none). -/
def convertedCapacity (pvc : PersistentVolumeClaim) : Prop :=
  match pvc.Capacity.lookup ResourceStorage with
  | some qty => qty.AsInt64.2 = true
  | none => True

instance (pvc : PersistentVolumeClaim) : Decidable (convertedCapacity pvc) := by
  unfold convertedCapacity; split <;> infer_instance

/-- The byte count a claim reports as its storage capacity (zero without one). -/
def claimBytes (pvc : PersistentVolumeClaim) : Int :=
  match pvc.Capacity.lookup ResourceStorage with
  | some (Quantity.whole n _ _) => n
  | _ => 0

/-- The exact integer sum of the byte counts of a list of claims. -/
def totalBytes (pvcs : List PersistentVolumeClaim) : Int :=
  (pvcs.map claimBytes).sum

/-- The names a pod contributes to the not-ready list: its name, once per container
status that is not ready. -/
def notReadyNames (p : Pod) : List String :=
  (p.ContainerStatuses.filter (fun stat => !stat.Ready)).map (fun _ => p.Name)

/-- The type of the last entry of a condition list, the empty string for an empty
list. -/
def lastConditionType (conds : List NodeCondition) : String :=
  match conds.getLast? with
  | some c => c.Type_
  | none => ""

/-- The five resource kinds that are listed. -/
inductive Kind where
  | Pod
  | Job
  | PersistentVolumeClaim
  | Deployment
  | Node
  deriving DecidableEq

/-- The gateway that behaves as `gw`, except that the listing of the given kind with
the given selector fails with `e` (the node listing has no selector). -/
def failListing (gw : Gateway) (kind : Kind) (selector : String) (e : String) : Gateway :=
  { GetPods := fun s ns =>
      if kind = Kind.Pod ∧ s = selector then .error e else gw.GetPods s ns
    GetJobs := fun s ns =>
      if kind = Kind.Job ∧ s = selector then .error e else gw.GetJobs s ns
    GetPVCs := fun s ns =>
      if kind = Kind.PersistentVolumeClaim ∧ s = selector then .error e else gw.GetPVCs s ns
    GetDeployments := fun s ns =>
      if kind = Kind.Deployment ∧ s = selector then .error e else gw.GetDeployments s ns
    GetAllNodes := if kind = Kind.Node then .error e else gw.GetAllNodes }

/-! ## Concrete runtime and gateways used as instances -/

/-- A runtime: `range` visits a map from the last stored entry to the first, and
`sort.Slice` is an insertion sort. -/
def sampleRuntime : Runtime :=
  { rangeLabels := List.reverse
    rangeCounts := List.reverse
    sortSlice := fun less l => l.insertionSort (fun a b => less b a = false) }

/-- Another runtime: `range` visits a map in the order of storing. -/
def plainRuntime : Runtime :=
  { rangeLabels := id
    rangeCounts := id
    sortSlice := fun less l => l.insertionSort (fun a b => less b a = false) }

/-- The label constants as the operator defines them. -/
def sampleUtil : Util :=
  { LABEL_OPERATOR := "postgres-operator"
    LABEL_PGBACKUP := "pgbackup"
    LABEL_PGREMOVE := "pgremove"
    LABEL_PG_CLUSTER := "pg-cluster" }

/-- A gateway all of whose listings fail. -/
def downGateway : Gateway :=
  { GetPods := fun _ _ => .error "down"
    GetJobs := fun _ _ => .error "down"
    GetPVCs := fun _ _ => .error "down"
    GetDeployments := fun _ _ => .error "down"
    GetAllNodes := .error "down" }

/-- A gateway all of whose listings are empty. -/
def emptyGateway : Gateway :=
  { GetPods := fun _ _ => .ok []
    GetJobs := fun _ _ => .ok []
    GetPVCs := fun _ _ => .ok []
    GetDeployments := fun _ _ => .ok []
    GetAllNodes := .ok [] }

/-- A pod with one container per image and one container status per flag. -/
def samplePod (name phase : String) (start : Option Time) (images : List String)
    (ready : List Bool) : Pod :=
  { Name := name, Phase := phase, StartTime := start,
    Containers := images.map Container.mk,
    ContainerStatuses := ready.map ContainerStatus.mk }

/-- A claim with the given storage capacity. -/
def sampleClaim (name : String) (qty : Quantity) : PersistentVolumeClaim :=
  { Name := name, Capacity := [(ResourceStorage, qty)] }

/-- A claim of 5Gi. -/
def claim5Gi : PersistentVolumeClaim :=
  sampleClaim "c1" (Quantity.whole (5 * 2 ^ 30) Format.BinarySI (by decide))

/-- A claim of 3Gi. -/
def claim3Gi : PersistentVolumeClaim :=
  sampleClaim "c2" (Quantity.whole (3 * 2 ^ 30) Format.BinarySI (by decide))

/-- A claim of 10Gi. -/
def claim10Gi : PersistentVolumeClaim :=
  sampleClaim "c3" (Quantity.whole (10 * 2 ^ 30) Format.BinarySI (by decide))

/-- A claim of 1Pi. -/
def claim1Pi : PersistentVolumeClaim :=
  sampleClaim "c4" (Quantity.whole (2 ^ 50) Format.BinarySI (by decide))

/-- A claim of 999999999999999999 bytes, a plain number of 18 digits. -/
def claimExa : PersistentVolumeClaim :=
  sampleClaim "c5" (Quantity.whole 999999999999999999 Format.DecimalSI (by decide))

/-- A small cluster: an operator pod, three database pods with images `a`, `a`, `b`
(one container of the second is not ready), claims of 5Gi and 3Gi, two deployments
and a node with the conditions `Ready`, `DiskPressure`. -/
def sampleGateway : Gateway :=
  { GetPods := fun s _ =>
      if s = "name=postgres-operator" then
        .ok [samplePod "pending" "Pending" none [] [],
             samplePod "operator" "Running" (some ⟨"2019-03-01 10:00:00 +0000 UTC"⟩) ["op"] [true]]
      else
        .ok [samplePod "db1" "Running" none ["a"] [true],
             samplePod "db2" "Running" none ["a"] [false],
             samplePod "db3" "Running" none ["b"] [true]]
    GetJobs := fun _ _ => .ok [⟨"backup1"⟩]
    GetPVCs := fun _ _ => .ok [claim5Gi, claim3Gi]
    GetDeployments := fun _ _ =>
      .ok [⟨"d1", [("app", "db"), ("tier", "x")]⟩, ⟨"d2", [("app", "db"), ("zone", "y")]⟩]
    GetAllNodes := .ok [⟨"node1", [("zone", "east")], [⟨"Ready"⟩, ⟨"DiskPressure"⟩]⟩] }

/-- A gateway whose operator listing holds a running pod without a start time. -/
def nilStartGateway : Gateway :=
  { emptyGateway with
    GetPods := fun _ _ => .ok [samplePod "operator" "Running" none ["op"] [true]] }

/-- A gateway with ten claims of 999999999999999999 bytes each. -/
def hugeClaimsGateway : Gateway :=
  { emptyGateway with
    GetPVCs := fun _ _ => .ok (List.replicate 10 claimExa) }

/-- A gateway with a claim of 10Gi and a claim of 1Pi. -/
def largeClaimGateway : Gateway :=
  { emptyGateway with GetPVCs := fun _ _ => .ok [claim10Gi, claim1Pi] }

/-- The report of the sample cluster. -/
def sampleReport : StatusDetail :=
  { OperatorStartTime := "2019-03-01 10:00:00 +0000 UTC"
    NumBackups := 1
    NumClaims := 2
    NumDatabases := 2
    VolumeCap := "8Gi"
    DbTags := [("a", 2), ("b", 1)]
    NotReady := ["db2"]
    Nodes := [{ Name := "node1", Status := "DiskPressure", Labels := [("zone", "east")] }]
    Labels := [⟨"app=db", 2⟩, ⟨"zone=y", 1⟩, ⟨"tier=x", 1⟩] }

/-! ## Lemmas on count maps -/

theorem countLabel_eq_bump (m : List (String × Int)) (s : String) :
    countLabel m s = bump m s := by
  unfold countLabel bump
  split
  · rename_i h; rw [h]; rfl
  · rfl

theorem mapGet_nil (k : String) : mapGet [] k = 0 := rfl

theorem mapGet_cons (k' : String) (v' : Int) (rest : List (String × Int)) (k : String) :
    mapGet ((k', v') :: rest) k = if k' = k then v' else mapGet rest k := by
  unfold mapGet
  by_cases h : k' = k
  · subst h; simp [List.lookup]
  · have : (k == k') = false := by simpa using fun h' => h h'.symm
    simp [List.lookup, this, h]

theorem mapGet_mapSet (m : List (String × Int)) (k : String) (v : Int) (k' : String) :
    mapGet (mapSet m k v) k' = if k = k' then v else mapGet m k' := by
  induction m with
  | nil => simp [mapSet, mapGet_cons, mapGet_nil]
  | cons p rest ih =>
    obtain ⟨a, b⟩ := p
    unfold mapSet
    by_cases h : a = k
    · subst h
      simp only [if_true, mapGet_cons]
      split <;> rfl
    · simp only [h, if_false, mapGet_cons, ih]
      by_cases h2 : a = k'
      · subst h2
        simp [Ne.symm h]
      · simp [h2]

theorem keys_mapSet (m : List (String × Int)) (k : String) (v : Int) :
    (mapSet m k v).map Prod.fst =
      if k ∈ m.map Prod.fst then m.map Prod.fst else m.map Prod.fst ++ [k] := by
  induction m with
  | nil => simp [mapSet]
  | cons p rest ih =>
    obtain ⟨a, b⟩ := p
    unfold mapSet
    by_cases h : a = k
    · subst h; simp
    · simp only [h, if_false, List.map_cons, ih, List.mem_cons, Ne.symm h, false_or]
      split <;> simp

theorem sum_mapSet (m : List (String × Int)) (k : String) (v : Int) :
    ((mapSet m k v).map Prod.snd).sum = (m.map Prod.snd).sum + v - mapGet m k := by
  induction m with
  | nil => simp [mapSet, mapGet_nil]
  | cons p rest ih =>
    obtain ⟨a, b⟩ := p
    unfold mapSet
    by_cases h : a = k
    · subst h
      simp only [if_true, List.map_cons, List.sum_cons, mapGet_cons]
      omega
    · simp only [h, if_false, List.map_cons, List.sum_cons, ih, mapGet_cons]
      omega

theorem mapGet_bump (m : List (String × Int)) (s k : String) :
    mapGet (bump m s) k = mapGet m k + (if s = k then 1 else 0) := by
  unfold bump
  rw [mapGet_mapSet]
  split
  · rename_i h; subst h; rfl
  · simp

theorem mem_keys_bump (m : List (String × Int)) (s k : String) :
    k ∈ (bump m s).map Prod.fst ↔ k ∈ m.map Prod.fst ∨ k = s := by
  unfold bump
  rw [keys_mapSet]
  split
  · rename_i h
    constructor
    · exact Or.inl
    · rintro (h' | h')
      · exact h'
      · subst h'; exact h
  · simp

theorem nodup_keys_bump (m : List (String × Int)) (s : String)
    (h : (m.map Prod.fst).Nodup) : ((bump m s).map Prod.fst).Nodup := by
  unfold bump
  rw [keys_mapSet]
  split
  · exact h
  · rename_i hs
    rw [List.nodup_append]
    refine ⟨h, List.nodup_singleton s, ?_⟩
    intro a ha hb
    rw [List.mem_singleton] at hb
    subst hb
    exact hs ha

theorem sum_bump (m : List (String × Int)) (s : String) :
    ((bump m s).map Prod.snd).sum = (m.map Prod.snd).sum + 1 := by
  unfold bump
  rw [sum_mapSet]
  omega

theorem mapGet_foldl_bump (xs : List String) (m : List (String × Int)) (k : String) :
    mapGet (xs.foldl bump m) k = mapGet m k + xs.count k := by
  induction xs generalizing m with
  | nil => simp
  | cons x xs ih =>
    rw [List.foldl_cons, ih, mapGet_bump, List.count_cons]
    by_cases h : x = k
    · subst h; simp; omega
    · have : (x == k) = false := by simpa using h
      simp [h, this]

theorem mem_keys_foldl_bump (xs : List String) (m : List (String × Int)) (k : String) :
    k ∈ (xs.foldl bump m).map Prod.fst ↔ k ∈ m.map Prod.fst ∨ k ∈ xs := by
  induction xs generalizing m with
  | nil => simp
  | cons x xs ih =>
    rw [List.foldl_cons, ih, mem_keys_bump, List.mem_cons]
    tauto

theorem nodup_keys_foldl_bump (xs : List String) (m : List (String × Int))
    (h : (m.map Prod.fst).Nodup) : ((xs.foldl bump m).map Prod.fst).Nodup := by
  induction xs generalizing m with
  | nil => simpa using h
  | cons x xs ih => exact ih _ (nodup_keys_bump m x h)

theorem sum_foldl_bump (xs : List String) (m : List (String × Int)) :
    (((xs.foldl bump m).map Prod.snd).sum : Int) = (m.map Prod.snd).sum + xs.length := by
  induction xs generalizing m with
  | nil => simp
  | cons x xs ih =>
    rw [List.foldl_cons, ih, sum_bump, List.length_cons]
    push_cast
    omega

theorem mem_iff_mapGet (m : List (String × Int)) (h : (m.map Prod.fst).Nodup) (k : String) (c : Int) :
    (k, c) ∈ m ↔ k ∈ m.map Prod.fst ∧ mapGet m k = c := by
  induction m with
  | nil => simp
  | cons p rest ih =>
    obtain ⟨a, b⟩ := p
    rw [List.map_cons, List.nodup_cons] at h
    rw [mapGet_cons, List.mem_cons, List.map_cons, List.mem_cons, ih h.2]
    by_cases hk : a = k
    · subst hk
      simp only [if_true, Prod.mk.injEq, true_and]
      constructor
      · rintro (h1 | h1)
        · exact ⟨Or.inl trivial, h1.symm⟩
        · exact absurd h1.1 h.1
      · rintro ⟨_, h1⟩
        exact Or.inl h1.symm
    · have hk' : ¬ k = a := fun e => hk e.symm
      simp [hk, hk']

theorem foldl_bump_flatMap {α : Type} (f : α → List String) (l : List α)
    (m : List (String × Int)) :
    l.foldl (fun r a => (f a).foldl bump r) m = (l.flatMap f).foldl bump m := by
  induction l generalizing m with
  | nil => rfl
  | cons a l ih => rw [List.foldl_cons, ih, List.flatMap_cons, List.foldl_append]

theorem countImages_eq (pods : List Pod) :
    countImages pods = (allImages pods).foldl bump [] := by
  unfold countImages allImages
  rw [← foldl_bump_flatMap]
  congr 1
  funext r p
  rw [List.foldl_map]
  rfl

theorem length_allImages (pods : List Pod) :
    (allImages pods).length = (pods.map (fun p => p.Containers.length)).sum := by
  induction pods with
  | nil => rfl
  | cons p ps ih =>
    unfold allImages at ih ⊢
    rw [List.flatMap_cons, List.length_append, ih]
    simp

/-- C5: for every list of pods the gateway returns, `getDBTags` maps each image
reference to the number of containers using it, has an entry exactly for the images
in use, and its counts add up to the number of containers; three pods with the
images a, a, b give a:2, b:1. -/
theorem getDBTags_histogram (u : Util) (gw : Gateway) (ns : String) (pods : List Pod)
    (h : gw.GetPods u.LABEL_PG_CLUSTER ns = .ok pods) :
    (∀ img, mapGet (getDBTags u gw ns) img = (allImages pods).count img) ∧
    ((getDBTags u gw ns).map Prod.fst).Nodup ∧
    (∀ img, img ∈ (getDBTags u gw ns).map Prod.fst ↔ img ∈ allImages pods) ∧
    (∀ img c, (img, c) ∈ getDBTags u gw ns ↔
      img ∈ allImages pods ∧ c = (allImages pods).count img) ∧
    ((getDBTags u gw ns).map Prod.snd).sum =
      ((pods.map (fun p => p.Containers.length)).sum : Nat) ∧
    (pods.map (fun p => p.Containers.map (fun c => c.Image)) = [["a"], ["a"], ["b"]] →
      getDBTags u gw ns = [("a", 2), ("b", 1)]) := by
  have hres : getDBTags u gw ns = (allImages pods).foldl bump [] := by
    unfold getDBTags
    rw [h]
    exact countImages_eq pods
  have hget : ∀ img, mapGet (getDBTags u gw ns) img = (allImages pods).count img := by
    intro img
    rw [hres, mapGet_foldl_bump, mapGet_nil, zero_add]
  have hnd : ((getDBTags u gw ns).map Prod.fst).Nodup := by
    rw [hres]
    exact nodup_keys_foldl_bump _ _ (by simp)
  have hkeys : ∀ img, img ∈ (getDBTags u gw ns).map Prod.fst ↔ img ∈ allImages pods := by
    intro img
    rw [hres, mem_keys_foldl_bump]
    simp
  refine ⟨hget, hnd, hkeys, ?_, ?_, ?_⟩
  · intro img c
    rw [mem_iff_mapGet _ hnd, hkeys, hget]
    constructor
    · rintro ⟨h1, h2⟩; exact ⟨h1, h2.symm⟩
    · rintro ⟨h1, h2⟩; exact ⟨h1, h2.symm⟩
  · rw [hres, sum_foldl_bump, length_allImages]
    simp
  · intro himgs
    have : allImages pods = ["a", "a", "b"] := by
      unfold allImages
      rw [List.flatMap_def, himgs]
      rfl
    rw [hres, this]
    decide

/-- Instance of `getDBTags_histogram` on the sample cluster. -/
theorem getDBTags_histogram_witness :
    sampleGateway.GetPods sampleUtil.LABEL_PG_CLUSTER "pgo" =
        .ok [samplePod "db1" "Running" none ["a"] [true],
             samplePod "db2" "Running" none ["a"] [false],
             samplePod "db3" "Running" none ["b"] [true]] ∧
      getDBTags sampleUtil sampleGateway "pgo" = [("a", 2), ("b", 1)] :=
  ⟨rfl, (getDBTags_histogram sampleUtil sampleGateway "pgo" _ rfl).2.2.2.2.2 rfl⟩

/-! ## The not-ready list -/

theorem foldl_notReady (name : String) (sts : List ContainerStatus) (agg : List String) :
    sts.foldl (fun agg stat => if !stat.Ready then agg ++ [name] else agg) agg =
      agg ++ (sts.filter (fun stat => !stat.Ready)).map (fun _ => name) := by
  induction sts generalizing agg with
  | nil => simp
  | cons st sts ih =>
    rw [List.foldl_cons, ih]
    cases hst : st.Ready <;> simp [List.filter_cons, hst]

theorem collectNotReady_eq (pods : List Pod) :
    collectNotReady pods = pods.flatMap notReadyNames := by
  have key : ∀ (ps : List Pod) (agg : List String),
      ps.foldl
        (fun agg p =>
          p.ContainerStatuses.foldl
            (fun agg stat => if !stat.Ready then agg ++ [p.Name] else agg) agg) agg =
        agg ++ ps.flatMap notReadyNames := by
    intro ps
    induction ps with
    | nil => intro agg; simp
    | cons p ps ih =>
      intro agg
      rw [List.foldl_cons, ih, foldl_notReady, List.flatMap_cons, List.append_assoc]
      rfl
  unfold collectNotReady
  rw [key, List.nil_append]

/-- C6: for every list of pods the gateway returns, `getNotReady` returns, in pod
order, each pod's name once per container status of that pod that is not ready and
nothing else; the list is empty when every container status of every pod is ready,
and a name is in the list exactly when a listed pod of that name has a container
status that is not ready. -/
theorem getNotReady_spec (u : Util) (gw : Gateway) (ns : String) (pods : List Pod)
    (h : gw.GetPods u.LABEL_PG_CLUSTER ns = .ok pods) :
    getNotReady u gw ns = pods.flatMap notReadyNames ∧
    (∀ p, (notReadyNames p).length =
      (p.ContainerStatuses.filter (fun stat => !stat.Ready)).length ∧
      ∀ n ∈ notReadyNames p, n = p.Name) ∧
    ((∀ p ∈ pods, ∀ stat ∈ p.ContainerStatuses, stat.Ready = true) →
      getNotReady u gw ns = []) ∧
    (∀ n, n ∈ getNotReady u gw ns ↔
      ∃ p ∈ pods, p.Name = n ∧ ∃ stat ∈ p.ContainerStatuses, stat.Ready = false) := by
  have hres : getNotReady u gw ns = pods.flatMap notReadyNames := by
    unfold getNotReady
    rw [h]
    exact collectNotReady_eq pods
  have hmem : ∀ n, n ∈ getNotReady u gw ns ↔
      ∃ p ∈ pods, p.Name = n ∧ ∃ stat ∈ p.ContainerStatuses, stat.Ready = false := by
    intro n
    rw [hres, List.mem_flatMap]
    constructor
    · rintro ⟨p, hp, hn⟩
      unfold notReadyNames at hn
      rw [List.mem_map] at hn
      obtain ⟨stat, hstat, rfl⟩ := hn
      rw [List.mem_filter] at hstat
      exact ⟨p, hp, rfl, stat, hstat.1, by simpa using hstat.2⟩
    · rintro ⟨p, hp, rfl, stat, hstat, hready⟩
      refine ⟨p, hp, ?_⟩
      unfold notReadyNames
      rw [List.mem_map]
      exact ⟨stat, List.mem_filter.mpr ⟨hstat, by simp [hready]⟩, rfl⟩
  refine ⟨hres, ?_, ?_, hmem⟩
  · intro p
    unfold notReadyNames
    refine ⟨by simp, ?_⟩
    intro n hn
    rw [List.mem_map] at hn
    obtain ⟨_, _, rfl⟩ := hn
    rfl
  · intro hall
    rw [List.eq_nil_iff_forall_not_mem]
    intro n hn
    obtain ⟨p, hp, _, stat, hstat, hready⟩ := (hmem n).mp hn
    rw [hall p hp stat hstat] at hready
    exact Bool.noConfusion hready

/-- Instance of `getNotReady_spec` on the sample cluster. -/
theorem getNotReady_spec_witness :
    sampleGateway.GetPods sampleUtil.LABEL_PG_CLUSTER "pgo" =
        .ok [samplePod "db1" "Running" none ["a"] [true],
             samplePod "db2" "Running" none ["a"] [false],
             samplePod "db3" "Running" none ["b"] [true]] ∧
      getNotReady sampleUtil sampleGateway "pgo" = ["db2"] :=
  ⟨rfl, (getNotReady_spec sampleUtil sampleGateway "pgo" _ rfl).1.trans (by decide)⟩

/-! ## The node inventory -/

theorem nodeInfo_eq (node : Node) :
    nodeInfo node =
      some { Name := node.Name, Status := lastConditionType node.Conditions,
             Labels := node.Labels } := by
  unfold nodeInfo lastConditionType
  rw [List.getLast?_eq_getElem?]
  simp only [List.get?_eq_getElem?]
  cases hc : node.Conditions with
  | nil => rfl
  | cons c cs =>
    have hlt : (c :: cs).length - 1 < (c :: cs).length := by simp
    simp only [List.getElem?_eq_getElem hlt]
    simp

theorem collectNodes_eq (nodes : List Node) (result : List NodeInfo) :
    collectNodes nodes result =
      some (result ++ nodes.map (fun node =>
        { Name := node.Name, Status := lastConditionType node.Conditions,
          Labels := node.Labels })) := by
  induction nodes generalizing result with
  | nil => simp [collectNodes]
  | cons node nodes ih =>
    unfold collectNodes
    rw [nodeInfo_eq]
    simp only [ih]
    simp

/-- C7: for every list of nodes the gateway returns, `getNodes` returns (no index out
of range, hence no panic) one entry per node in the same order, with the node's name
and label set and with the type of the last entry of the node's condition list as
status, the empty status for an empty condition list; the conditions Ready,
DiskPressure give DiskPressure. -/
theorem getNodes_spec (gw : Gateway) (nodes : List Node) (h : gw.GetAllNodes = .ok nodes) :
    getNodes gw = some (nodes.map (fun node =>
      { Name := node.Name, Status := lastConditionType node.Conditions,
        Labels := node.Labels })) ∧
    (∀ c cs, lastConditionType (cs ++ [c]) = c.Type_) ∧
    lastConditionType [] = "" ∧
    lastConditionType [⟨"Ready"⟩, ⟨"DiskPressure"⟩] = "DiskPressure" := by
  refine ⟨?_, ?_, rfl, rfl⟩
  · unfold getNodes
    rw [h]
    simp only [collectNodes_eq, List.nil_append]
  · intro c cs
    unfold lastConditionType
    rw [List.getLast?_append, List.getLast?_singleton]
    rfl

/-- Instance of `getNodes_spec` on the sample cluster. -/
theorem getNodes_spec_witness :
    sampleGateway.GetAllNodes =
        .ok [⟨"node1", [("zone", "east")], [⟨"Ready"⟩, ⟨"DiskPressure"⟩]⟩] ∧
      getNodes sampleGateway =
        some [{ Name := "node1", Status := "DiskPressure", Labels := [("zone", "east")] }] :=
  ⟨rfl, (getNodes_spec sampleGateway _ rfl).1⟩

/-! ## The volume capacity -/

theorem wrapInt64_add_left (a b : Int) : wrapInt64 (wrapInt64 a + b) = wrapInt64 (a + b) := by
  unfold wrapInt64
  omega

theorem wrapInt64_of_fits (x : Int) (h : fitsInt64 x) : wrapInt64 x = x := by
  unfold fitsInt64 at h
  unfold wrapInt64
  omega

theorem getClaimCapacity_of_converted (pvc : PersistentVolumeClaim)
    (h : convertedCapacity pvc) : getClaimCapacity pvc = claimBytes pvc := by
  unfold convertedCapacity at h
  unfold getClaimCapacity claimBytes
  cases hq : pvc.Capacity.lookup ResourceStorage with
  | none => rfl
  | some q =>
    rw [hq] at h
    cases q with
    | whole n format hn =>
      simp only [Quantity.AsInt64] at h ⊢
      cases hp : parsedAsInt64 n format
      · simp [hp] at h
      · simp [hp]
    | fractional => simp [Quantity.AsInt64] at h

theorem sumClaimCapacity_eq (pvcs : List PersistentVolumeClaim)
    (h : ∀ p ∈ pvcs, convertedCapacity p) :
    sumClaimCapacity pvcs = wrapInt64 (totalBytes pvcs) := by
  have key : ∀ (l : List PersistentVolumeClaim), (∀ p ∈ l, convertedCapacity p) → ∀ a : Int,
      l.foldl (fun capTotal p => wrapInt64 (capTotal + getClaimCapacity p)) (wrapInt64 a) =
        wrapInt64 (a + (l.map claimBytes).sum) := by
    intro l
    induction l with
    | nil => intro _ a; simp
    | cons p l ih =>
      intro hl a
      rw [List.foldl_cons, wrapInt64_add_left,
        getClaimCapacity_of_converted p (hl p (List.mem_cons_self p l)),
        ih (fun q hq => hl q (List.mem_cons_of_mem p hq)), List.map_cons, List.sum_cons,
        add_assoc]
  have h0 : (0 : Int) = wrapInt64 0 := by decide
  unfold sumClaimCapacity totalBytes
  rw [h0, key pvcs h 0, zero_add]

/-- C9 (amended): when the claim listing fails, `getVolumeCap` returns the literal
"error". -/
theorem getVolumeCap_listing_error (u : Util) (gw : Gateway) (ns : String) (e : String)
    (h : gw.GetPVCs u.LABEL_PGREMOVE ns = .error e) :
    getVolumeCap u gw ns = "error" := by
  unfold getVolumeCap
  rw [h]

/-- Instance of `getVolumeCap_listing_error` on the gateway whose listings fail. -/
theorem getVolumeCap_listing_error_witness :
    downGateway.GetPVCs sampleUtil.LABEL_PGREMOVE "pgo" = .error "down" ∧
      getVolumeCap sampleUtil downGateway "pgo" = "error" :=
  ⟨rfl, getVolumeCap_listing_error sampleUtil downGateway "pgo" "down" rfl⟩

/-- C9 as stated fails: with a failing claim listing `getVolumeCap` returns "error",
which is neither "0" nor the value it returns for zero matching claims. -/
theorem getVolumeCap_listing_error_counterexample :
    downGateway.GetPVCs sampleUtil.LABEL_PGREMOVE "pgo" = .error "down" ∧
      emptyGateway.GetPVCs sampleUtil.LABEL_PGREMOVE "pgo" = .ok [] ∧
      getVolumeCap sampleUtil emptyGateway "pgo" = "0" ∧
      getVolumeCap sampleUtil downGateway "pgo" ≠ "0" ∧
      getVolumeCap sampleUtil downGateway "pgo" ≠ getVolumeCap sampleUtil emptyGateway "pgo" := by
  refine ⟨rfl, rfl, by decide, by decide, by decide⟩

/-! ## The operator start time -/

theorem getOperatorStartLoop_none_running (pods : List Pod)
    (h : ∀ p ∈ pods, p.Phase ≠ "Running") : getOperatorStartLoop pods = some "error" := by
  induction pods with
  | nil => rfl
  | cons p ps ih =>
    unfold getOperatorStartLoop
    rw [if_neg (h p (List.mem_cons_self p ps))]
    exact ih (fun q hq => h q (List.mem_cons_of_mem p hq))

theorem getOperatorStartLoop_first_running (pre post : List Pod) (p : Pod)
    (hpre : ∀ q ∈ pre, q.Phase ≠ "Running") (hp : p.Phase = "Running") :
    getOperatorStartLoop (pre ++ p :: post) = p.StartTime.map Time.String := by
  induction pre with
  | nil =>
    rw [List.nil_append]
    unfold getOperatorStartLoop
    rw [if_pos hp]
    cases p.StartTime <;> rfl
  | cons q qs ih =>
    rw [List.cons_append]
    unfold getOperatorStartLoop
    rw [if_neg (hpre q (List.mem_cons_self q qs))]
    exact ih (fun r hr => hpre r (List.mem_cons_of_mem q hr))

/-- What `getOperatorStart` does on every gateway result: the sentinel "error" when
the listing fails or no listed pod is in the `Running` phase; otherwise the string
form of the start time of the first pod in the `Running` phase when that pod has a
start time, and a panic when it has none. -/
theorem getOperatorStart_behaviour (u : Util) (gw : Gateway) (ns : String) :
    (∀ e, gw.GetPods ("name=" ++ u.LABEL_OPERATOR) ns = .error e →
      getOperatorStart u gw ns = some "error") ∧
    (∀ pods, gw.GetPods ("name=" ++ u.LABEL_OPERATOR) ns = .ok pods →
      (∀ p ∈ pods, p.Phase ≠ "Running") → getOperatorStart u gw ns = some "error") ∧
    (∀ pre p post, gw.GetPods ("name=" ++ u.LABEL_OPERATOR) ns = .ok (pre ++ p :: post) →
      (∀ q ∈ pre, q.Phase ≠ "Running") → p.Phase = "Running" →
      (∀ t, p.StartTime = some t → getOperatorStart u gw ns = some t.String) ∧
      (p.StartTime = none → getOperatorStart u gw ns = none)) := by
  refine ⟨?_, ?_, ?_⟩
  · intro e h
    unfold getOperatorStart
    rw [h]
  · intro pods h hnone
    unfold getOperatorStart
    rw [h]
    exact getOperatorStartLoop_none_running pods hnone
  · intro pre p post h hpre hp
    have hres : getOperatorStart u gw ns = p.StartTime.map Time.String := by
      unfold getOperatorStart
      rw [h]
      exact getOperatorStartLoop_first_running pre post p hpre hp
    constructor
    · intro t ht
      rw [hres, ht]
      rfl
    · intro ht
      rw [hres, ht]
      rfl

/-- C10 at the failing input: the operator listing succeeds with one pod in the
`Running` phase whose start time is nil, and `getOperatorStart` panics instead of
returning a value. -/
theorem getOperatorStart_nil_start_time :
    nilStartGateway.GetPods ("name=" ++ sampleUtil.LABEL_OPERATOR) "pgo" =
        .ok [samplePod "operator" "Running" none ["op"] [true]] ∧
      getOperatorStart sampleUtil nilStartGateway "pgo" = none :=
  ⟨rfl, rfl⟩

/-! ## Composer and envelope -/

theorem getNodes_returns (gw : Gateway) : ∃ nodes, getNodes gw = some nodes := by
  unfold getNodes
  cases gw.GetAllNodes with
  | error e => exact ⟨[], rfl⟩
  | ok nodes => exact ⟨_, collectNodes_eq nodes []⟩

/-- The composer and the envelope outside the panic: whenever `getOperatorStart`
returns, `getStatus` returns a report with a nil error and `Status` returns that
report in an envelope with code `Ok` and an empty message, whichever listings fail;
and `Status` panics only when `getOperatorStart` does. -/
theorem Status_ok_unless_panic (rt : Runtime) (u : Util) (gw : Gateway) (ns : String) :
    (∀ start, getOperatorStart u gw ns = some start →
      ∃ report, getStatus rt u gw StatusDetail.zero ns = some (report, none) ∧
        Status rt u gw ns = some { Result := report, Status := { Code := Code.Ok, Msg := "" } }) ∧
    (getOperatorStart u gw ns = none → Status rt u gw ns = none) ∧
    (∀ results report err, getStatus rt u gw results ns = some (report, err) → err = none) := by
  obtain ⟨nodes, hnodes⟩ := getNodes_returns gw
  refine ⟨?_, ?_, ?_⟩
  · intro start hstart
    simp only [Status, getStatus, hstart, hnodes]
    exact ⟨_, rfl, rfl⟩
  · intro hstart
    simp only [Status, getStatus, hstart]
  · intro results report err h
    unfold getStatus at h
    cases hstart : getOperatorStart u gw ns with
    | none => simp [hstart] at h
    | some start =>
      simp only [hstart, hnodes, Option.some.injEq, Prod.mk.injEq] at h
      exact h.2.symm

/-- C2 at the failing input: with a running operator pod whose start time is nil,
`Status` panics and returns no envelope. -/
theorem Status_nil_start_time :
    nilStartGateway.GetPods ("name=" ++ sampleUtil.LABEL_OPERATOR) "pgo" =
        .ok [samplePod "operator" "Running" none ["op"] [true]] ∧
      Status sampleRuntime sampleUtil nilStartGateway "pgo" = none :=
  ⟨rfl, rfl⟩

/-! ## Partial failure is per extractor -/

theorem getOperatorStart_failListing (u : Util) (gw : Gateway) (kind : Kind)
    (selector e ns : String) :
    getOperatorStart u (failListing gw kind selector e) ns =
      if kind = Kind.Pod ∧ "name=" ++ u.LABEL_OPERATOR = selector then some "error"
      else getOperatorStart u gw ns := by
  unfold getOperatorStart failListing
  by_cases hk : kind = Kind.Pod ∧ "name=" ++ u.LABEL_OPERATOR = selector
  · simp only [if_pos hk]
  · simp only [if_neg hk]

theorem getNumBackups_failListing (u : Util) (gw : Gateway) (kind : Kind)
    (selector e ns : String) (h : ¬(kind = Kind.Job ∧ u.LABEL_PGBACKUP = selector)) :
    getNumBackups u (failListing gw kind selector e) ns = getNumBackups u gw ns := by
  unfold getNumBackups failListing
  simp only [if_neg h]

theorem getNumClaims_failListing (u : Util) (gw : Gateway) (kind : Kind)
    (selector e ns : String)
    (h : ¬(kind = Kind.PersistentVolumeClaim ∧ u.LABEL_PGREMOVE = selector)) :
    getNumClaims u (failListing gw kind selector e) ns = getNumClaims u gw ns := by
  unfold getNumClaims failListing
  simp only [if_neg h]

theorem getVolumeCap_failListing (u : Util) (gw : Gateway) (kind : Kind)
    (selector e ns : String)
    (h : ¬(kind = Kind.PersistentVolumeClaim ∧ u.LABEL_PGREMOVE = selector)) :
    getVolumeCap u (failListing gw kind selector e) ns = getVolumeCap u gw ns := by
  unfold getVolumeCap failListing
  simp only [if_neg h]

theorem getNumDatabases_failListing (u : Util) (gw : Gateway) (kind : Kind)
    (selector e ns : String) (h : ¬(kind = Kind.Deployment ∧ u.LABEL_PG_CLUSTER = selector)) :
    getNumDatabases u (failListing gw kind selector e) ns = getNumDatabases u gw ns := by
  unfold getNumDatabases failListing
  simp only [if_neg h]

theorem getDBTags_failListing (u : Util) (gw : Gateway) (kind : Kind)
    (selector e ns : String) (h : ¬(kind = Kind.Pod ∧ u.LABEL_PG_CLUSTER = selector)) :
    getDBTags u (failListing gw kind selector e) ns = getDBTags u gw ns := by
  unfold getDBTags failListing
  simp only [if_neg h]

theorem getNotReady_failListing (u : Util) (gw : Gateway) (kind : Kind)
    (selector e ns : String) (h : ¬(kind = Kind.Pod ∧ u.LABEL_PG_CLUSTER = selector)) :
    getNotReady u (failListing gw kind selector e) ns = getNotReady u gw ns := by
  unfold getNotReady failListing
  simp only [if_neg h]

theorem getNodes_failListing (gw : Gateway) (kind : Kind) (selector e : String)
    (h : kind ≠ Kind.Node) :
    getNodes (failListing gw kind selector e) = getNodes gw := by
  unfold getNodes failListing
  simp only [if_neg h]

theorem getLabels_failListing (rt : Runtime) (gw : Gateway) (kind : Kind)
    (selector e ns : String) (h : ¬(kind = Kind.Deployment ∧ "" = selector)) :
    getLabels rt (failListing gw kind selector e) ns = getLabels rt gw ns := by
  unfold getLabels failListing
  simp only [if_neg h]

theorem getStatus_fields (rt : Runtime) (u : Util) (gw : Gateway) (results report : StatusDetail)
    (ns : String) (err : Option String)
    (h : getStatus rt u gw results ns = some (report, err)) :
    getOperatorStart u gw ns = some report.OperatorStartTime ∧
    report.NumBackups = getNumBackups u gw ns ∧
    report.NumClaims = getNumClaims u gw ns ∧
    report.NumDatabases = getNumDatabases u gw ns ∧
    report.VolumeCap = getVolumeCap u gw ns ∧
    report.DbTags = getDBTags u gw ns ∧
    report.NotReady = getNotReady u gw ns ∧
    getNodes gw = some report.Nodes ∧
    report.Labels = getLabels rt gw ns := by
  unfold getStatus at h
  cases hstart : getOperatorStart u gw ns with
  | none => simp [hstart] at h
  | some start =>
    cases hnodes : getNodes gw with
    | none => simp [hstart, hnodes] at h
    | some nodes =>
      simp only [hstart, hnodes, Option.some.injEq, Prod.mk.injEq] at h
      obtain ⟨h1, _⟩ := h
      subst h1
      exact ⟨rfl, rfl, rfl, rfl, rfl, rfl, rfl, rfl, rfl⟩

/-- C3: partial failure is per extractor. For every namespace, every gateway and
every listing (resource kind and selector) made to fail, if `getStatus` builds a
report on the gateway then it builds a report on the gateway with the failing
listing too, and every field of the report that is derived from a different
listing has the same value in both reports. -/
theorem getStatus_frame (rt : Runtime) (u : Util) (gw : Gateway) (kind : Kind)
    (selector e : String) (results : StatusDetail) (ns : String)
    (r1 : StatusDetail) (err1 : Option String)
    (h : getStatus rt u gw results ns = some (r1, err1)) :
    ∃ r2 err2, getStatus rt u (failListing gw kind selector e) results ns = some (r2, err2) ∧
      (¬(kind = Kind.Pod ∧ "name=" ++ u.LABEL_OPERATOR = selector) →
        r2.OperatorStartTime = r1.OperatorStartTime) ∧
      (¬(kind = Kind.Job ∧ u.LABEL_PGBACKUP = selector) → r2.NumBackups = r1.NumBackups) ∧
      (¬(kind = Kind.PersistentVolumeClaim ∧ u.LABEL_PGREMOVE = selector) →
        r2.NumClaims = r1.NumClaims ∧ r2.VolumeCap = r1.VolumeCap) ∧
      (¬(kind = Kind.Deployment ∧ u.LABEL_PG_CLUSTER = selector) →
        r2.NumDatabases = r1.NumDatabases) ∧
      (¬(kind = Kind.Pod ∧ u.LABEL_PG_CLUSTER = selector) →
        r2.DbTags = r1.DbTags ∧ r2.NotReady = r1.NotReady) ∧
      (kind ≠ Kind.Node → r2.Nodes = r1.Nodes) ∧
      (¬(kind = Kind.Deployment ∧ "" = selector) → r2.Labels = r1.Labels) := by
  obtain ⟨h1, h2, h3, h4, h5, h6, h7, h8, h9⟩ := getStatus_fields rt u gw results r1 ns err1 h
  obtain ⟨start2, hstart2⟩ : ∃ s, getOperatorStart u (failListing gw kind selector e) ns = some s := by
    rw [getOperatorStart_failListing]
    split
    · exact ⟨_, rfl⟩
    · exact ⟨_, h1⟩
  obtain ⟨nodes2, hnodes2⟩ := getNodes_returns (failListing gw kind selector e)
  have hrun : ∃ r2 err2,
      getStatus rt u (failListing gw kind selector e) results ns = some (r2, err2) := by
    simp only [getStatus, hstart2, hnodes2]
    exact ⟨_, _, rfl⟩
  obtain ⟨r2, err2, hr2⟩ := hrun
  obtain ⟨g1, g2, g3, g4, g5, g6, g7, g8, g9⟩ :=
    getStatus_fields rt u (failListing gw kind selector e) results r2 ns err2 hr2
  refine ⟨r2, err2, hr2, ?_, ?_, ?_, ?_, ?_, ?_, ?_⟩
  · intro hk
    rw [getOperatorStart_failListing, if_neg hk, h1] at g1
    exact (Option.some.inj g1).symm
  · intro hk
    rw [g2, h2, getNumBackups_failListing u gw kind selector e ns hk]
  · intro hk
    rw [g3, h3, g5, h5, getNumClaims_failListing u gw kind selector e ns hk,
      getVolumeCap_failListing u gw kind selector e ns hk]
    exact ⟨rfl, rfl⟩
  · intro hk
    rw [g4, h4, getNumDatabases_failListing u gw kind selector e ns hk]
  · intro hk
    rw [g6, h6, g7, h7, getDBTags_failListing u gw kind selector e ns hk,
      getNotReady_failListing u gw kind selector e ns hk]
    exact ⟨rfl, rfl⟩
  · intro hk
    rw [getNodes_failListing gw kind selector e hk, h8] at g8
    exact (Option.some.inj g8).symm
  · intro hk
    rw [g9, h9, getLabels_failListing rt gw kind selector e ns hk]

/-! ## The label histogram -/

/-- The label strings in the order the counting loops of `getLabels` meet them. -/
theorem countLabels_eq (rt : Runtime) (deps : List Deployment) :
    countLabels rt deps =
      (deps.flatMap (fun dep =>
        (rt.rangeLabels dep.Labels).map (fun kv => kv.1 ++ "=" ++ kv.2))).foldl bump [] := by
  unfold countLabels
  rw [← foldl_bump_flatMap]
  congr 1
  funext r dep
  rw [List.foldl_map]
  congr 1
  funext r kv
  exact countLabel_eq_bump r _

theorem visited_perm_labelStrings (rt : Runtime) (hrt : rt.Lawful) (deps : List Deployment) :
    (deps.flatMap (fun dep =>
      (rt.rangeLabels dep.Labels).map (fun kv => kv.1 ++ "=" ++ kv.2))).Perm
      (labelStrings deps) := by
  unfold labelStrings
  exact List.Perm.flatMap_left deps (fun dep _ => (hrt.rangeLabels_perm dep.Labels).map _)

theorem countLabels_nodup (rt : Runtime) (deps : List Deployment) :
    ((countLabels rt deps).map Prod.fst).Nodup := by
  rw [countLabels_eq]
  exact nodup_keys_foldl_bump _ _ (by simp)

theorem countLabels_mem (rt : Runtime) (hrt : rt.Lawful) (deps : List Deployment)
    (s : String) (c : Int) :
    (s, c) ∈ countLabels rt deps ↔
      s ∈ labelStrings deps ∧ c = (labelStrings deps).count s := by
  rw [mem_iff_mapGet _ (countLabels_nodup rt deps), countLabels_eq, mem_keys_foldl_bump,
    mapGet_foldl_bump, mapGet_nil, zero_add,
    (visited_perm_labelStrings rt hrt deps).count_eq s,
    (visited_perm_labelStrings rt hrt deps).mem_iff]
  simp only [List.map_nil, List.not_mem_nil, false_or]
  constructor
  · rintro ⟨h1, h2⟩; exact ⟨h1, h2.symm⟩
  · rintro ⟨h1, h2⟩; exact ⟨h1, h2.symm⟩

theorem getLabels_perm (rt : Runtime) (hrt : rt.Lawful) (gw : Gateway) (ns : String)
    (deps : List Deployment) (h : gw.GetDeployments "" ns = .ok deps) :
    (getLabels rt gw ns).Perm ((countLabels rt deps).map (fun kv => KeyValue.mk kv.1 kv.2)) := by
  unfold getLabels
  rw [h]
  exact (hrt.sortSlice_perm _ _).trans ((hrt.rangeCounts_perm _).map _)

theorem getLabels_mem (rt : Runtime) (hrt : rt.Lawful) (gw : Gateway) (ns : String)
    (deps : List Deployment) (h : gw.GetDeployments "" ns = .ok deps) (kv : KeyValue) :
    kv ∈ getLabels rt gw ns ↔
      kv.Key ∈ labelStrings deps ∧ kv.Value = (labelStrings deps).count kv.Key := by
  rw [(getLabels_perm rt hrt gw ns deps h).mem_iff, List.mem_map,
    ← countLabels_mem rt hrt deps kv.Key kv.Value]
  constructor
  · rintro ⟨⟨s, c⟩, hmem, rfl⟩
    exact hmem
  · intro hmem
    exact ⟨(kv.Key, kv.Value), hmem, rfl⟩

theorem getLabels_keys_nodup (rt : Runtime) (hrt : rt.Lawful) (gw : Gateway) (ns : String)
    (deps : List Deployment) (h : gw.GetDeployments "" ns = .ok deps) :
    ((getLabels rt gw ns).map KeyValue.Key).Nodup := by
  have hp := (getLabels_perm rt hrt gw ns deps h).map KeyValue.Key
  rw [hp.nodup_iff, List.map_map]
  exact countLabels_nodup rt deps

/-- C8: for every list of deployments, the result of `getLabels` has exactly one
entry for each distinct string key=value formed from a label of some deployment, and
the count of that entry is the number of (deployment, label) pairs that form the
string; hence the entries are the same, up to their order, for every order of map
iteration and every way the sort breaks ties. -/
theorem getLabels_entries (rt : Runtime) (hrt : rt.Lawful) (gw : Gateway) (ns : String)
    (deps : List Deployment) (h : gw.GetDeployments "" ns = .ok deps) :
    ((getLabels rt gw ns).map KeyValue.Key).Nodup ∧
    (∀ s, s ∈ (getLabels rt gw ns).map KeyValue.Key ↔ s ∈ labelStrings deps) ∧
    (∀ kv, kv ∈ getLabels rt gw ns ↔
      kv.Key ∈ labelStrings deps ∧ kv.Value = (labelStrings deps).count kv.Key) ∧
    (∀ rt2 : Runtime, rt2.Lawful → (getLabels rt2 gw ns).Perm (getLabels rt gw ns)) := by
  refine ⟨getLabels_keys_nodup rt hrt gw ns deps h, ?_, getLabels_mem rt hrt gw ns deps h, ?_⟩
  · intro s
    rw [List.mem_map]
    constructor
    · rintro ⟨kv, hkv, rfl⟩
      exact ((getLabels_mem rt hrt gw ns deps h kv).mp hkv).1
    · intro hs
      exact ⟨⟨s, (labelStrings deps).count s⟩,
        (getLabels_mem rt hrt gw ns deps h _).mpr ⟨hs, rfl⟩, rfl⟩
  · intro rt2 hrt2
    rw [List.perm_ext_iff_of_nodup
      (List.Nodup.of_map _ (getLabels_keys_nodup rt2 hrt2 gw ns deps h))
      (List.Nodup.of_map _ (getLabels_keys_nodup rt hrt gw ns deps h))]
    intro kv
    rw [getLabels_mem rt2 hrt2 gw ns deps h, getLabels_mem rt hrt gw ns deps h]

theorem labelLess_strictWeakOrder : StrictWeakOrder labelLess := by
  constructor
  · intro a b hab
    unfold labelLess at hab ⊢
    rw [decide_eq_true_iff] at hab
    rw [decide_eq_false_iff_not]
    omega
  · intro a b c hac
    unfold labelLess at hac ⊢
    rw [decide_eq_true_iff] at hac
    simp only [decide_eq_true_iff]
    omega

/-- C4: for every list of deployments (and for a failing listing), the list returned
by `getLabels` is ordered by count: each entry's count is greater than or equal to
the count of the entry after it, indeed of every later entry, and when the counts
are pairwise distinct the order is strictly descending. -/
theorem getLabels_sorted (rt : Runtime) (hrt : rt.Lawful) (gw : Gateway) (ns : String) :
    ((getLabels rt gw ns).map KeyValue.Value).Chain' (fun a b => a ≥ b) ∧
    ((getLabels rt gw ns).map KeyValue.Value).Sorted (fun a b => a ≥ b) ∧
    (((getLabels rt gw ns).map KeyValue.Value).Nodup →
      ((getLabels rt gw ns).map KeyValue.Value).Sorted (fun a b => a > b)) := by
  have hchain : ((getLabels rt gw ns).map KeyValue.Value).Chain' (fun a b => a ≥ b) := by
    unfold getLabels
    cases gw.GetDeployments "" ns with
    | error e => exact List.chain'_nil
    | ok deps =>
      rw [List.chain'_map]
      refine (hrt.sortSlice_sorted labelLess _ labelLess_strictWeakOrder).imp ?_
      intro a b hba
      unfold labelLess at hba
      rw [decide_eq_false_iff_not] at hba
      omega
  have hsorted : ((getLabels rt gw ns).map KeyValue.Value).Sorted (fun a b => a ≥ b) :=
    List.chain'_iff_pairwise.mp hchain
  refine ⟨hchain, hsorted, ?_⟩
  intro hnd
  refine (List.Pairwise.and hsorted hnd).imp ?_
  rintro a b ⟨hge, hne⟩
  omega

theorem sortSlice_insertion_sorted (less : KeyValue → KeyValue → Bool) (l : List KeyValue)
    (h : StrictWeakOrder less) :
    (l.insertionSort (fun a b => less b a = false)).Chain' (fun a b => less b a = false) := by
  haveI : IsTotal KeyValue (fun a b => less b a = false) :=
    ⟨fun a b => by
      cases hba : less b a
      · exact Or.inl rfl
      · exact Or.inr (h.asymm b a hba)⟩
  haveI : IsTrans KeyValue (fun a b => less b a = false) :=
    ⟨fun a b c hab hbc => by
      cases hca : less c a
      · rfl
      · rcases h.negTrans c b a hca with h1 | h1
        · rw [hbc] at h1; exact Bool.noConfusion h1
        · rw [hab] at h1; exact Bool.noConfusion h1⟩
  exact (List.sorted_insertionSort (fun a b => less b a = false) l).chain'

theorem sampleRuntime_lawful : sampleRuntime.Lawful :=
  { rangeLabels_perm := fun m => List.reverse_perm m
    rangeCounts_perm := fun m => List.reverse_perm m
    sortSlice_perm := fun _ l => List.perm_insertionSort _ l
    sortSlice_sorted := fun less l h => sortSlice_insertion_sorted less l h }

theorem plainRuntime_lawful : plainRuntime.Lawful :=
  { rangeLabels_perm := fun m => List.Perm.refl m
    rangeCounts_perm := fun m => List.Perm.refl m
    sortSlice_perm := fun _ l => List.perm_insertionSort _ l
    sortSlice_sorted := fun less l h => sortSlice_insertion_sorted less l h }

/-- Instance of `getLabels_sorted` on the sample cluster. -/
theorem getLabels_sorted_witness :
    sampleRuntime.Lawful ∧
      (getLabels sampleRuntime sampleGateway "pgo").map KeyValue.Value = [2, 1, 1] ∧
      ((getLabels sampleRuntime sampleGateway "pgo").map KeyValue.Value).Chain'
        (fun a b => a ≥ b) :=
  ⟨sampleRuntime_lawful, by decide,
    (getLabels_sorted sampleRuntime sampleRuntime_lawful sampleGateway "pgo").1⟩

/-- Instance of `getLabels_entries` on the sample cluster: two runtimes that break
the tie between `tier=x` and `zone=y` differently give the same entries. -/
theorem getLabels_entries_witness :
    sampleRuntime.Lawful ∧ plainRuntime.Lawful ∧
      sampleGateway.GetDeployments "" "pgo" =
        .ok [⟨"d1", [("app", "db"), ("tier", "x")]⟩, ⟨"d2", [("app", "db"), ("zone", "y")]⟩] ∧
      getLabels sampleRuntime sampleGateway "pgo" =
        [⟨"app=db", 2⟩, ⟨"zone=y", 1⟩, ⟨"tier=x", 1⟩] ∧
      getLabels plainRuntime sampleGateway "pgo" =
        [⟨"app=db", 2⟩, ⟨"tier=x", 1⟩, ⟨"zone=y", 1⟩] ∧
      (getLabels plainRuntime sampleGateway "pgo").Perm
        (getLabels sampleRuntime sampleGateway "pgo") :=
  ⟨sampleRuntime_lawful, plainRuntime_lawful, rfl, by decide, by decide,
    (getLabels_entries sampleRuntime sampleRuntime_lawful sampleGateway "pgo" _ rfl).2.2.2
      plainRuntime plainRuntime_lawful⟩

/-- Instance of `getStatus_frame` on the sample cluster with the claim listing made
to fail: both runs build a report, and the two reports differ in the claim count and
the volume capacity only. -/
theorem getStatus_frame_witness :
    getStatus sampleRuntime sampleUtil sampleGateway StatusDetail.zero "pgo" =
        some (sampleReport, none) ∧
      getStatus sampleRuntime sampleUtil
          (failListing sampleGateway Kind.PersistentVolumeClaim "pgremove" "timeout")
          StatusDetail.zero "pgo" =
        some ({ sampleReport with NumClaims := 0, VolumeCap := "error" }, none) ∧
      ∃ r2 err2,
        getStatus sampleRuntime sampleUtil
            (failListing sampleGateway Kind.PersistentVolumeClaim "pgremove" "timeout")
            StatusDetail.zero "pgo" = some (r2, err2) ∧
          r2.OperatorStartTime = sampleReport.OperatorStartTime ∧
          r2.NumBackups = sampleReport.NumBackups ∧
          r2.NumDatabases = sampleReport.NumDatabases ∧
          r2.DbTags = sampleReport.DbTags ∧ r2.NotReady = sampleReport.NotReady ∧
          r2.Nodes = sampleReport.Nodes ∧ r2.Labels = sampleReport.Labels := by
  refine ⟨by decide, by decide, ?_⟩
  obtain ⟨r2, err2, hr2, h1, h2, _, h4, h5, h6, h7⟩ :=
    getStatus_frame sampleRuntime sampleUtil sampleGateway Kind.PersistentVolumeClaim
      "pgremove" "timeout" StatusDetail.zero "pgo" sampleReport none (by decide)
  exact ⟨r2, err2, hr2, h1 (by decide), h2 (by decide), h4 (by decide),
    (h5 (by decide)).1, (h5 (by decide)).2, h6 (by decide), h7 (by decide)⟩

end statusservice
